import Mathlib

/-!
Shallow embedding of the SyncUp newsletter core:
the bulk dispatcher `sendNewsletter` (src/components/newsletter/emails.tsx),
the IMAP ingestion route `GET` (src/app/api/fetch-newsletter-emails/route.ts)
with its relevance classifier and attachment sweep, and the client-side
dispatch entry point `handleSendNewsletter` (src/components/NewsletterCreation.tsx).

JavaScript string and truthiness semantics are modelled explicitly:
`null`/`undefined` become `Option`, the `||` default operator and the
truthiness of `""` are spelled out, and `String.prototype.includes` is a
contiguous-sublist test on the character lists.
-/

/-- Model of JS string truthiness: the empty string is falsy. -/
def strTruthy (s : String) : Bool := !(s == "")

/-- Model of JS `a || b` where `a` is a nullable string: `null`, `undefined`
and `""` all fall through to the default `b`. -/
def jsOr (a : Option String) (b : String) : String :=
  match a with
  | none => b
  | some s => if s == "" then b else s

/-- Model of JS `s.includes(pat)`: `pat` occurs contiguously inside `s`.
The empty pattern is contained in every string, as in JS. -/
def jsIncludes (s pat : String) : Bool := decide (pat.data <:+: s.data)

/-! ## Dispatcher data model (src/components/newsletter/emails.tsx) -/

/-- Recipient record as the dispatcher sees it: only `id` and `email` are
read by `sendNewsletter`; `email` may be absent (`undefined` in the source). -/
structure User where
  id : String
  email : Option String
deriving Repr, DecidableEq

/-- Content handed to the mail submission service for one recipient,
mirroring the `emailContent` object built inside `sendNewsletter`. -/
structure EmailContent where
  fromField : String
  toField : String
  subject : String
  html : String
  attachments : List String
deriving Repr, DecidableEq

/-- Row inserted into the `emails` table on a successful send. -/
structure EmailRow where
  sender_id : String
  receiver_id : String
  sender : String
  receiver : String
  subject : String
  body : String
  status : String
deriving Repr, DecidableEq

/-- One entry of the `failures` list returned by `sendNewsletter`. -/
structure SendFailure where
  email : String
  reason : String
deriving Repr, DecidableEq

/-- Outcome of one call to the Resend provider: either a response object
(with or without `data`, and an optional `error.message`), or a thrown
exception carrying a message. -/
inductive ResendOutcome where
  | resp (hasData : Bool) (error : Option String)
  | thrown (message : String)
deriving Repr, DecidableEq

/-- Response object as seen by `sendNewsletter` after `sendEmail` returns. -/
structure ResendResponse where
  hasData : Bool
  error : Option String
deriving Repr, DecidableEq

/-- Sandbox notice the provider returns on a free plan. -/
def sandboxNotice : String := "You can only send testing emails to your own email address"

/-- Message `sendEmail` throws when it recognises the sandbox notice. -/
def freePlanMessage : String := "You can only send emails to the account bound to the Resend API Free Plan."

/-- Model of `sendEmail` (emails.tsx): forwards the provider response, except
that a provider error containing the sandbox notice is converted into a
thrown error with a fixed message; thrown errors are re-thrown. -/
def sendEmail (outcome : ResendOutcome) : Except String ResendResponse :=
  match outcome with
  | .thrown msg => .error msg
  | .resp hasData err =>
    match err with
    | some m =>
      if jsIncludes m sandboxNotice then .error freePlanMessage
      else .ok ⟨hasData, some m⟩
    | none => .ok ⟨hasData, none⟩

/-- Environment of one `sendNewsletter` call: the provider outcome per
recipient address, and the database insert result per row (`none` = insert
succeeded, `some msg` = insert error with that message). -/
structure DispatchEnv where
  resend : String → ResendOutcome
  insert : EmailRow → Option String

/-- Model of `Array.prototype.filter` when the callback also reads the
element index. -/
def jsFilterWithIndex {α : Type} (p : α → Nat → Bool) : List α → Nat → List α
  | [], _ => []
  | a :: rest, i =>
    if p a i then a :: jsFilterWithIndex p rest (i + 1)
    else jsFilterWithIndex p rest (i + 1)

/-- Model of the `uniqueUsers` computation in `sendNewsletter`:
`allUsers.filter((user, index, self) => index === self.findIndex(t => t.email === user.email))`. -/
def uniqueUsers (allUsers : List User) : List User :=
  jsFilterWithIndex
    (fun user index => allUsers.findIdx (fun t => t.email == user.email) == index)
    allUsers 0

/-- Per-recipient contribution of the anonymous callback inside
`uniqueUsers.map(async (user) => ...)`: the submissions it issued, the
increment to `successCount`, the entries pushed onto `failures`, and the
rows inserted into the `emails` table. -/
structure UserResult where
  submitted : List EmailContent
  succ : Nat
  failures : List SendFailure
  rows : List EmailRow
deriving Repr, DecidableEq

/-- Model of the per-recipient body of `sendNewsletter`: skip a falsy email,
otherwise submit via `sendEmail`; on a response with `data`, insert the row
(an insert error is re-thrown and caught as a failure); on a response
without `data` or a thrown error, record a failure and continue. -/
def sendToUser (env : DispatchEnv) (subject content : String)
    (attachments : List String) (organizationName organizationUuid : String)
    (user : User) : UserResult :=
  match user.email with
  | none => ⟨[], 0, [], []⟩
  | some e =>
    if e == "" then ⟨[], 0, [], []⟩
    else
      let emailContent : EmailContent :=
        ⟨organizationName ++ " <onboarding@resend.dev>", e, subject, content, attachments⟩
      match sendEmail (env.resend e) with
      | .error msg => ⟨[emailContent], 0, [⟨e, msg⟩], []⟩
      | .ok response =>
        if response.hasData then
          let row : EmailRow :=
            ⟨organizationUuid, user.id, organizationName, e, subject, content, "Sent"⟩
          match env.insert row with
          | some insertMsg => ⟨[emailContent], 0, [⟨e, insertMsg⟩], []⟩
          | none => ⟨[emailContent], 1, [], [row]⟩
        else
          ⟨[emailContent], 0, [⟨e, jsOr response.error "Unknown error sending email"⟩], []⟩

/-- Aggregate result of `sendNewsletter`, extended with the trace of
messages actually submitted to the provider. -/
structure DispatchResult where
  successCount : Nat
  failures : List SendFailure
  rows : List EmailRow
  submitted : List EmailContent
deriving Repr, DecidableEq

/-- Model of `sendNewsletter` (emails.tsx, lines 564-643): deduplicate the
recipient list by email (first occurrence kept), run the per-recipient body
for each survivor, and aggregate the success counter, the failures list,
the inserted rows and the submitted messages. The source runs the
per-recipient bodies concurrently under `Promise.all`; the aggregates are
insensitive to the interleaving, so the model sequences them in list
order. -/
def sendNewsletter (env : DispatchEnv) (subject content : String)
    (allUsers : List User) (attachments : List String)
    (organizationName organizationUuid : String) : DispatchResult :=
  let uniq := uniqueUsers allUsers
  let results := uniq.map (sendToUser env subject content attachments organizationName organizationUuid)
  { successCount := (results.map (·.succ)).sum
    failures := (results.map (·.failures)).flatten
    rows := (results.map (·.rows)).flatten
    submitted := (results.map (·.submitted)).flatten }

/-! ## Specification-side definitions for the dispatcher -/

/-- Dedup as the specification glossary defines it: the sequence with
duplicate addresses removed, the first occurrence kept. -/
def dedup : List User → List User
  | [] => []
  | u :: rest => u :: dedup (rest.filter (fun v => !(v.email == u.email)))
termination_by l => l.length
decreasing_by simp; exact Nat.lt_succ_of_le (List.length_filter_le _ _)

/-- Recipient actually addressable: the email field is present and non-empty
(JS truthiness of `user.email`). -/
def truthyEmail (u : User) : Bool :=
  match u.email with
  | none => false
  | some e => !(e == "")

/-- Boolean telling whether the per-recipient body ends in the success
branch (provider returned `data` and the row insert succeeded). -/
def deliveredB (env : DispatchEnv) (subject content organizationName organizationUuid : String)
    (u : User) : Bool :=
  match u.email with
  | none => false
  | some e =>
    if e == "" then false
    else
      match sendEmail (env.resend e) with
      | .error _ => false
      | .ok response =>
        if response.hasData then
          (env.insert ⟨organizationUuid, u.id, organizationName, e, subject, content, "Sent"⟩).isNone
        else false

/-- Boolean telling whether the per-recipient body records a failure entry:
an addressable recipient whose send did not end in the success branch. -/
def failedB (env : DispatchEnv) (subject content organizationName organizationUuid : String)
    (u : User) : Bool :=
  truthyEmail u && !(deliveredB env subject content organizationName organizationUuid u)

/-- Message content the per-recipient body submits for an addressable user. -/
def contentOf (subject content : String) (attachments : List String)
    (organizationName : String) (u : User) : EmailContent :=
  ⟨organizationName ++ " <onboarding@resend.dev>", u.email.getD "", subject, content, attachments⟩

/-- Row the per-recipient body inserts for a delivered user. -/
def rowOf (subject content organizationName organizationUuid : String) (u : User) : EmailRow :=
  ⟨organizationUuid, u.id, organizationName, u.email.getD "", subject, content, "Sent"⟩

/-! ## Ingestion route data model (src/app/api/fetch-newsletter-emails/route.ts) -/

/-- One parsed mailbox entry of an address header: display name and address.
mailparser yields a string display name, possibly empty. -/
structure EmailAddress where
  name : String
  address : String
deriving Repr, DecidableEq

/-- mailparser address object: the list of parsed addresses plus the
formatted text rendering of the whole header. -/
structure AddressObject where
  value : List EmailAddress
  text : String
deriving Repr, DecidableEq

/-- mailparser's `to` field: a single address object or an array of them. -/
inductive ToField where
  | single (a : AddressObject)
  | multiple (objs : List AddressObject)
deriving Repr, DecidableEq

/-- Model of the normalisation
`Array.isArray(parsedEmail.to) ? parsedEmail.to : [parsedEmail.to]`. -/
def toArray : ToField → List AddressObject
  | .single a => [a]
  | .multiple objs => objs

/-- Attachment part as produced by the parser: the original filename and
content type may both be absent. -/
structure ParsedAttachment where
  filename : Option String
  contentType : Option String
  content : String
deriving Repr, DecidableEq

/-- Structured message as produced by `simpleParser`. Dates are modelled as
an optional numeric timestamp; `html` is `none` when mailparser reports
`false`. -/
structure ParsedMail where
  fromField : Option AddressObject
  toField : Option ToField
  subject : Option String
  date : Option Nat
  text : Option String
  html : Option String
  attachments : List ParsedAttachment
deriving Repr, DecidableEq

/-- Model of `formatAddress` (route.ts): `"Unknown"` for an absent header,
otherwise the comma-joined `name <address>` renderings. -/
def formatAddress (address : Option AddressObject) : String :=
  match address with
  | none => "Unknown"
  | some a =>
    String.intercalate ", " (a.value.map (fun addr => addr.name ++ " <" ++ addr.address ++ ">"))

/-- Model of the relevance block of the route (route.ts lines 98-123):
a sent-mail message is relevant when some `from` entry has a truthy display
name containing the organization name; an INBOX message is relevant when
some `to` entry has a truthy text containing `+<slug>@gmail.com`. -/
def computeIsRelevant (mailbox organizationName organizationSlug : String)
    (parsedEmail : ParsedMail) : Bool :=
  if mailbox == "[Gmail]/Sent Mail" then
    match parsedEmail.fromField with
    | some fromObj =>
      fromObj.value.any (fun address =>
        strTruthy address.name && jsIncludes address.name organizationName)
    | none => false
  else if mailbox == "INBOX" then
    match parsedEmail.toField with
    | some tf =>
      (toArray tf).any (fun address =>
        strTruthy address.text
          && jsIncludes address.text ("+" ++ organizationSlug ++ "@gmail.com"))
    | none => false
  else false

/-- Attachment record exposed to the caller in the route's response. -/
structure IncomingAttachment where
  filename : String
  contentType : String
  url : String
deriving Repr, DecidableEq

/-- Email record the route returns for one relevant message. -/
structure Email where
  id : String
  fromField : String
  toField : List String
  subject : String
  date : String
  body : String
  htmlContent : String
  attachments : List IncomingAttachment
  mailbox : String
  status : String
  date_created : String
deriving Repr, DecidableEq

/-- One body part of a fetched IMAP message. -/
structure MessagePart where
  which : String
  body : String
deriving Repr, DecidableEq

/-- Raw message returned by the IMAP search: store identifier plus parts. -/
structure FetchedMessage where
  uid : Nat
  parts : List MessagePart
deriving Repr, DecidableEq

/-- Model of `res.parts.find((part) => part.which === "")?.body`: the raw
body part when present. -/
def rawEmailOf (res : FetchedMessage) : Option String :=
  (res.parts.find? (fun part => part.which == "")).map (·.body)

/-- Environment of one ingestion cycle: outcomes of the IMAP connection,
folder opens and searches, of `simpleParser` per raw body, of each
filesystem write and unlink, and the clock value used in unique filenames.
(`Date.now()` is sampled per attachment in the source; one cycle-constant
value is used here, which only coarsens filename uniqueness.) -/
structure RouteEnv where
  connect : Except String Unit
  openBox : String → Except String Unit
  search : String → List FetchedMessage
  parse : String → Except String ParsedMail
  writeOk : String → Bool
  unlinkOk : String → Bool
  now : Nat

/-- Observable side effects of the route, in order of occurrence. -/
inductive Effect where
  | connect
  | openBox (mailbox : String)
  | writeFile (filename : String)
  | unlink (filename : String)
  | endSession
deriving Repr, DecidableEq

/-- Mutable state threaded through one route invocation: the effect trace,
the files in the attachments directory, and the process-wide
`downloadedAttachments` set (a list without duplicates). -/
structure RouteState where
  trace : List Effect
  disk : List String
  downloaded : List String
deriving Repr, DecidableEq

/-- Model of `path.basename` for POSIX paths: the part after the last `/`. -/
def basename (s : String) : String :=
  String.mk ((s.data.reverse.takeWhile (fun c => c != '/')).reverse)

/-- Model of one iteration of the attachment loop (route.ts lines 133-162):
build the unique sanitized filename, skip it when already downloaded,
otherwise attempt the write; on success record the filename as downloaded,
put the file on disk and push the attachment record; on a write error skip
the attachment. -/
def processOneAttachment (env : RouteEnv) (uid : Nat) (st : RouteState)
    (acc : List IncomingAttachment) (index : Nat) (attachment : ParsedAttachment) :
    RouteState × List IncomingAttachment :=
  let originalFilename := jsOr attachment.filename ("attachment-" ++ toString index)
  let uniqueFilename := toString uid ++ "-" ++ toString env.now ++ "-" ++ originalFilename
  let sanitizedFilename := basename uniqueFilename
  if st.downloaded.contains sanitizedFilename then (st, acc)
  else
    let st1 := { st with trace := st.trace ++ [Effect.writeFile sanitizedFilename] }
    if env.writeOk sanitizedFilename then
      ({ st1 with
          downloaded := st1.downloaded ++ [sanitizedFilename]
          disk := st1.disk ++ [sanitizedFilename] },
        acc ++ [⟨sanitizedFilename, jsOr attachment.contentType "application/octet-stream",
          "/api/get-attachment?filename=" ++ sanitizedFilename⟩])
    else (st1, acc)

/-- Attachment loop over `parsedEmail.attachments.entries()`. -/
def processAttachmentsAux (env : RouteEnv) (uid : Nat) :
    List ParsedAttachment → Nat → RouteState → List IncomingAttachment →
    RouteState × List IncomingAttachment
  | [], _, st, acc => (st, acc)
  | attachment :: rest, index, st, acc =>
    let p := processOneAttachment env uid st acc index attachment
    processAttachmentsAux env uid rest (index + 1) p.1 p.2

/-- Entry point of the attachment loop for one relevant message. -/
def processAttachments (env : RouteEnv) (uid : Nat)
    (attachments : List ParsedAttachment) (st : RouteState) :
    RouteState × List IncomingAttachment :=
  processAttachmentsAux env uid attachments 0 st []

/-- Model of the `Email` object construction (route.ts lines 165-183).
In the source, when `parsedEmail.to` is an array the mapped callback reads
`.name`/`.address` off `AddressObject`s, which lack those properties, so
each entry renders as `"undefined <undefined>"`; the model reproduces
that. -/
def mkEmail (env : RouteEnv) (uid : Nat) (mailbox : String)
    (parsedEmail : ParsedMail) (attachments : List IncomingAttachment) : Email :=
  { id := toString uid
    fromField := formatAddress parsedEmail.fromField
    toField :=
      match parsedEmail.toField with
      | some (.multiple objs) => objs.map (fun _ => "undefined <undefined>")
      | some (.single a) => a.value.map (fun addr => addr.name ++ " <" ++ addr.address ++ ">")
      | none => []
    subject := jsOr parsedEmail.subject "No Subject"
    date := match parsedEmail.date with
      | some d => toString d
      | none => "No Date"
    body := jsOr parsedEmail.text ""
    htmlContent := jsOr parsedEmail.html ""
    attachments := attachments
    mailbox := mailbox
    status := "unread"
    date_created := toString env.now }

/-- Model of the message loop for one mailbox (route.ts lines 87-189):
a message without a truthy raw body part is skipped; a parse error is
thrown (it propagates out of the loop); an irrelevant message is skipped
before attachment extraction; a relevant one contributes its `Email`
record after the attachment loop ran. -/
def processMessages (env : RouteEnv) (organizationName organizationSlug mailbox : String) :
    List FetchedMessage → RouteState → RouteState × Except String (List Email)
  | [], st => (st, .ok [])
  | res :: rest, st =>
    match rawEmailOf res with
    | none => processMessages env organizationName organizationSlug mailbox rest st
    | some rawEmail =>
      if rawEmail == "" then processMessages env organizationName organizationSlug mailbox rest st
      else
        match env.parse rawEmail with
        | .error e => (st, .error e)
        | .ok parsedEmail =>
          if computeIsRelevant mailbox organizationName organizationSlug parsedEmail then
            let p := processAttachments env res.uid parsedEmail.attachments st
            let email := mkEmail env res.uid mailbox parsedEmail p.2
            match processMessages env organizationName organizationSlug mailbox rest p.1 with
            | (st2, .error e) => (st2, .error e)
            | (st2, .ok emails) => (st2, .ok (email :: emails))
          else
            processMessages env organizationName organizationSlug mailbox rest st

/-- Model of the mailbox loop: open each box (a failure there throws),
process its search results, and concatenate the relevant emails in
folder-major order. -/
def runMailboxes (env : RouteEnv) (organizationName organizationSlug : String) :
    List String → RouteState → RouteState × Except String (List Email)
  | [], st => (st, .ok [])
  | mailbox :: rest, st =>
    let st1 := { st with trace := st.trace ++ [Effect.openBox mailbox] }
    match env.openBox mailbox with
    | .error e => (st1, .error e)
    | .ok _ =>
      match processMessages env organizationName organizationSlug mailbox (env.search mailbox) st1 with
      | (st2, .error e) => (st2, .error e)
      | (st2, .ok emails1) =>
        match runMailboxes env organizationName organizationSlug rest st2 with
        | (st3, .error e) => (st3, .error e)
        | (st3, .ok emails2) => (st3, .ok (emails1 ++ emails2))

/-- Files `cleanupOldAttachments` leaves on disk: a file survives the sweep
iff it is in the valid set, or its unlink attempt failed (failures are
logged and skipped). -/
def cleanupRemaining (unlinkOk : String → Bool) (files valid : List String) : List String :=
  files.filter (fun file => valid.contains file || !unlinkOk file)

/-- Truthiness of a request query parameter: absent or empty is falsy. -/
def jsFalsyParam (p : Option String) : Bool :=
  match p with
  | none => true
  | some s => s == ""

/-- Response of the route handler. -/
inductive GETResponse where
  | badRequest (message : String)
  | ok (emails : List Email)
  | serverError (message : String)
deriving Repr, DecidableEq

/-- Model of the route handler `GET` (route.ts lines 41-207): reject missing
parameters with a 400 before touching the mail store; connect; process both
fixed mailboxes; on the normal path close the session and sweep the
attachments directory against the process-wide downloaded set; any thrown
error is caught at top level and returned as a 500, with no session close
and no sweep. -/
def getRoute (env : RouteEnv) (organizationName organizationSlug : Option String)
    (disk0 downloaded0 : List String) : GETResponse × RouteState :=
  let st0 : RouteState := ⟨[], disk0, downloaded0⟩
  if jsFalsyParam organizationName || jsFalsyParam organizationSlug then
    (.badRequest "Organization name and slug are required", st0)
  else
    let st1 := { st0 with trace := st0.trace ++ [Effect.connect] }
    match env.connect with
    | .error e => (.serverError e, st1)
    | .ok _ =>
      match runMailboxes env (organizationName.getD "") (organizationSlug.getD "")
          ["INBOX", "[Gmail]/Sent Mail"] st1 with
      | (st2, .error e) => (.serverError e, st2)
      | (st2, .ok emails) =>
        let st3 := { st2 with trace := st2.trace ++ [Effect.endSession] }
        let st4 := { st3 with
          trace := st3.trace
            ++ (st3.disk.filter (fun f => !st3.downloaded.contains f)).map Effect.unlink
          disk := cleanupRemaining env.unlinkOk st3.disk st3.downloaded }
        (.ok emails, st4)

/-- Attachment filenames referenced by a returned list of emails. -/
def referencedFiles (emails : List Email) : List String :=
  (emails.map (fun e => e.attachments.map (·.filename))).flatten

/-! ## Client-side dispatch entry point (src/components/NewsletterCreation.tsx) -/

/-- Event row: only `eventid` is read by the newsletter flow. -/
structure Event where
  eventid : String
deriving Repr, DecidableEq

/-- Environment of the client flow: member resolution per selected event
(the RPC wrapper returns `[]` on an error). -/
structure UIEnv where
  fetchMembersByEvent : String → List User

/-- Form state read by `handleSendNewsletter`. -/
structure NewsletterForm where
  subject : String
  content : String
  selectedUsers : List User
  selectedEvents : List Event

/-- Result of the client flow, cut off at the outgoing request: either a
validation failure shown to the user (no request issued), or the POST to
the send endpoint with the deduplicated recipient emails. -/
inductive UIResult where
  | validationError (message : String)
  | posted (recipients : List (Option String)) (subject : String) (message : String)
deriving Repr, DecidableEq

/-- Model of `validateForm`: the zod schema requires a non-empty subject and
content (messages joined with ", "), then at least one selected user or
event is required. `none` means the form is valid. -/
def validateForm (form : NewsletterForm) : Option String :=
  let zodErrors :=
    (if form.subject == "" then ["Subject is required"] else [])
      ++ (if form.content == "" then ["Content is required"] else [])
  if !zodErrors.isEmpty then some (String.intercalate ", " zodErrors)
  else if form.selectedUsers.isEmpty && form.selectedEvents.isEmpty then
    some "At least one recipient is required"
  else none

/-- Users reachable by the job: explicitly selected ones followed by the
members resolved from each selected event, flattened in order. -/
def combinedUsersOf (env : UIEnv) (form : NewsletterForm) : List User :=
  form.selectedUsers
    ++ (form.selectedEvents.map (fun event => env.fetchMembersByEvent event.eventid)).flatten

/-- Model of `handleSendNewsletter` (NewsletterCreation.tsx): validate the
form, resolve event members, deduplicate the combined list with the same
`filter`/`findIndex` code as the dispatcher, reject an empty deduplicated
set before any request, and otherwise POST the recipient emails. -/
def handleSendNewsletter (env : UIEnv) (form : NewsletterForm) : UIResult :=
  match validateForm form with
  | some msg => .validationError msg
  | none =>
    let uniqueRecipients := uniqueUsers (combinedUsersOf env form)
    if uniqueRecipients.length == 0 then
      .validationError "At least one recipient is required."
    else
      .posted (uniqueRecipients.map (·.email)) form.subject form.content

/-! ## Specification-side relevance predicate for the received folder -/

/-- Received-folder relevance as claim C2 states it: some recipient address
contains `+<slug>@`, for any mail domain. -/
def specReceivedRelevantAnyDomain (organizationSlug : String) (m : ParsedMail) : Bool :=
  match m.toField with
  | some tf =>
    (toArray tf).any (fun a =>
      a.value.any (fun ea => jsIncludes ea.address ("+" ++ organizationSlug ++ "@")))
  | none => false

/-- Extraction helper: the emails of a successful route response. -/
def responseEmails : GETResponse → Option (List Email)
  | .ok emails => some emails
  | _ => none

/-- Environment in which the provider and the insert always succeed. -/
def envAllOk : DispatchEnv := ⟨fun _ => .resp true none, fun _ => none⟩

/-- Three recipients, the first and third sharing one address. -/
def usersC1 : List User := [⟨"1", some "a@x.com"⟩, ⟨"2", some "b@x.com"⟩, ⟨"3", some "a@x.com"⟩]

/-- Environment in which exactly the address `b@x.com` fails at the provider. -/
def envOneFail : DispatchEnv :=
  ⟨fun e => if e == "b@x.com" then .thrown "boom" else .resp true none, fun _ => none⟩

/-- First recipient of the C7 instance. -/
def uA : User := ⟨"1", some "a@x.com"⟩

/-- Second recipient of the C7 instance (the failing one). -/
def uB : User := ⟨"2", some "b@x.com"⟩

/-- Third recipient of the C7 instance. -/
def uC : User := ⟨"3", some "c@x.com"⟩

/-- Message addressed to `events+acme@yahoo.com`: relevant under the
claim's any-domain predicate, but not to the code. -/
def mC2 : ParsedMail :=
  { fromField := none
    toField := some (.single ⟨[⟨"", "events+acme@yahoo.com"⟩], "events+acme@yahoo.com"⟩)
    subject := none, date := none, text := none, html := none, attachments := [] }

/-- Sent-mail message whose from display name is `Acme Robotics Admin`. -/
def mC3 : ParsedMail :=
  { fromField := some ⟨[⟨"Acme Robotics Admin", "admin@gmail.com"⟩],
      "Acme Robotics Admin <admin@gmail.com>"⟩
    toField := none, subject := none, date := none, text := none, html := none
    attachments := [] }

/-- Environment whose mail store is never reached in the C6 instance. -/
def envTrivial : RouteEnv :=
  ⟨.ok (), fun _ => .ok (), fun _ => [], fun _ => .error "unused", fun _ => true, fun _ => true, 0⟩

/-- Environment in which the single INBOX message fails to parse. -/
def envParseFails : RouteEnv :=
  ⟨.ok (), fun _ => .ok (),
   fun mailbox => if mailbox == "INBOX" then [⟨1, [⟨"", "RAW"⟩]⟩] else [],
   fun _ => .error "Malformed message", fun _ => true, fun _ => true, 100⟩

/-- Message carrying no raw body part. -/
def msgNoBody : FetchedMessage := ⟨7, [⟨"HEADER", "x"⟩]⟩

/-- Message whose raw body the parser rejects. -/
def msgBadBody : FetchedMessage := ⟨8, [⟨"", "BROKEN"⟩]⟩

/-- Relevant INBOX message without attachments. -/
def parsedRelevant : ParsedMail :=
  { fromField := none
    toField := some (.single ⟨[⟨"", "events+acme@gmail.com"⟩], "events+acme@gmail.com"⟩)
    subject := none, date := none, text := none, html := none, attachments := [] }

/-- Cycle with an unparsable first message followed by a good relevant one. -/
def envTwoMsgs : RouteEnv :=
  ⟨.ok (), fun _ => .ok (),
   fun mailbox => if mailbox == "INBOX" then [⟨1, [⟨"", "BAD"⟩]⟩, ⟨2, [⟨"", "GOOD"⟩]⟩] else [],
   fun raw => if raw == "GOOD" then .ok parsedRelevant else .error "Malformed message",
   fun _ => true, fun _ => true, 100⟩

/-- The same cycle with only the good message present. -/
def envOneGoodMsg : RouteEnv :=
  ⟨.ok (), fun _ => .ok (),
   fun mailbox => if mailbox == "INBOX" then [⟨2, [⟨"", "GOOD"⟩]⟩] else [],
   fun raw => if raw == "GOOD" then .ok parsedRelevant else .error "Malformed message",
   fun _ => true, fun _ => true, 100⟩

/-- Relevant message carrying attachment `a.txt`. -/
def parsedAttachA : ParsedMail :=
  { fromField := none
    toField := some (.single ⟨[⟨"", "x+acme@gmail.com"⟩], "x+acme@gmail.com"⟩)
    subject := none, date := none, text := none, html := none
    attachments := [⟨some "a.txt", some "text/plain", "DATA-A"⟩] }

/-- Relevant message carrying attachment `b.txt`. -/
def parsedAttachB : ParsedMail :=
  { fromField := none
    toField := some (.single ⟨[⟨"", "x+acme@gmail.com"⟩], "x+acme@gmail.com"⟩)
    subject := none, date := none, text := none, html := none
    attachments := [⟨some "b.txt", some "text/plain", "DATA-B"⟩] }

/-- First ingestion cycle: one relevant message with attachment `a.txt`. -/
def envCycle1 : RouteEnv :=
  ⟨.ok (), fun _ => .ok (),
   fun mailbox => if mailbox == "INBOX" then [⟨1, [⟨"", "RAW-A"⟩]⟩] else [],
   fun _ => .ok parsedAttachA, fun _ => true, fun _ => true, 100⟩

/-- Second ingestion cycle: a different relevant message with `b.txt`. -/
def envCycle2 : RouteEnv :=
  ⟨.ok (), fun _ => .ok (),
   fun mailbox => if mailbox == "INBOX" then [⟨2, [⟨"", "RAW-B"⟩]⟩] else [],
   fun _ => .ok parsedAttachB, fun _ => true, fun _ => true, 200⟩

/-- Result of the first cycle on an empty disk and empty downloaded set. -/
def runCycle1 : GETResponse × RouteState := getRoute envCycle1 (some "Acme") (some "acme") [] []

/-- Result of the second cycle, with disk and downloaded set carried over
(the downloaded set is a module-level singleton in the source). -/
def runCycle2 : GETResponse × RouteState :=
  getRoute envCycle2 (some "Acme") (some "acme") runCycle1.2.disk runCycle1.2.downloaded

/-- Client environment resolving no members for any event. -/
def uiEnvEmpty : UIEnv := ⟨fun _ => []⟩

/-- Form selecting one event that resolves to no members: the combined and
deduplicated recipient set is empty. -/
def formC8 : NewsletterForm := ⟨"Subj", "Body", [], [⟨"event-1"⟩]⟩

/-- Form with one explicitly selected recipient. -/
def formC8b : NewsletterForm := ⟨"Subj", "Body", [⟨"1", some "a@x.com"⟩], []⟩

/-- State after a successful empty-mailbox cycle of `envTrivial`: connect,
both folder opens, then the session close; nothing on disk to sweep. -/
def stTrivialOk : RouteState :=
  ⟨[Effect.connect, Effect.openBox "INBOX", Effect.openBox "[Gmail]/Sent Mail",
    Effect.endSession], [], []⟩

/-! ## Lemmas about the deduplication -/

/-- Symmetry of boolean equality on optional strings. -/
lemma optBeq_comm (a b : Option String) : (a == b) = (b == a) := by
  by_cases h : a = b
  · subst h; rfl
  · rw [beq_eq_false_iff_ne.mpr h, beq_eq_false_iff_ne.mpr (Ne.symm h)]

/-- A hit below the length witnesses a matching element. -/
lemma exists_of_findIdx_lt {α : Type} (p : α → Bool) :
    ∀ l : List α, l.findIdx p < l.length → ∃ x ∈ l, p x = true := by
  intro l
  induction l with
  | nil => intro h; simp at h
  | cons a rest ih =>
    intro h
    by_cases ha : p a = true
    · exact ⟨a, List.mem_cons_self a rest, ha⟩
    · rw [List.findIdx_cons] at h
      have ha' : p a = false := by
        cases hpa : p a
        · rfl
        · exact absurd hpa ha
      simp [ha'] at h
      obtain ⟨x, hx, hpx⟩ := h
      exact ⟨x, List.mem_cons_of_mem a hx, hpx⟩

/-- Generalised shape of the `filter`/`findIndex` deduplication: scanning a
suffix with absolute indices against the whole list keeps exactly the first
occurrences not already represented in the prefix. -/
lemma jsFilter_eq_dedup_aux (l0 : List User) :
    ∀ (suf pre : List User), l0 = pre ++ suf →
      jsFilterWithIndex
          (fun u index => (l0.findIdx (fun t => t.email == u.email)) == index)
          suf pre.length
        = dedup (suf.filter (fun v => !(pre.any (fun x => x.email == v.email)))) := by
  intro suf
  induction suf with
  | nil => intro pre _; simp [jsFilterWithIndex, dedup]
  | cons u rest ih =>
    intro pre h
    have hpre1 : l0 = (pre ++ [u]) ++ rest := by simp [h]
    have hlen1 : (pre ++ [u]).length = pre.length + 1 := by simp
    by_cases hA : pre.any (fun x => x.email == u.email) = true
    · -- the head's address already occurs in the prefix: it is skipped
      have hex : ∃ x ∈ pre, (fun t => t.email == u.email) x = true := by
        simpa [List.any_eq_true] using hA
      have hlt : pre.findIdx (fun t => t.email == u.email) < pre.length :=
        List.findIdx_lt_length_of_exists hex
      have hfind : l0.findIdx (fun t => t.email == u.email)
          = pre.findIdx (fun t => t.email == u.email) := by
        rw [h, List.findIdx_append, if_pos hlt]
      have hcond : (l0.findIdx (fun t => t.email == u.email) == pre.length) = false := by
        rw [hfind]
        exact beq_eq_false_iff_ne.mpr (Nat.ne_of_lt hlt)
      have hstep := ih (pre ++ [u]) hpre1
      rw [hlen1] at hstep
      have hfilter : rest.filter (fun v => !((pre ++ [u]).any (fun x => x.email == v.email)))
          = rest.filter (fun v => !(pre.any (fun x => x.email == v.email))) := by
        apply List.filter_congr
        intro v _
        have happ : (pre ++ [u]).any (fun x => x.email == v.email)
            = (pre.any (fun x => x.email == v.email) || (u.email == v.email)) := by
          simp [List.any_append]
        rw [happ]
        by_cases huv : (u.email == v.email) = true
        · obtain ⟨x, hx, hxu⟩ := hex
          have hxu' : x.email = u.email := by simpa using hxu
          have huv' : u.email = v.email := by simpa using huv
          have : pre.any (fun x => x.email == v.email) = true := by
            rw [List.any_eq_true]
            exact ⟨x, hx, by simp [hxu', huv']⟩
          simp [this]
        · have huv' : (u.email == v.email) = false := by
            cases hx : u.email == v.email
            · rfl
            · exact absurd hx huv
          simp [huv']
      rw [jsFilterWithIndex, if_neg (by simp [hcond]), hstep, hfilter]
      have hu : (fun v => !(pre.any (fun x => x.email == v.email))) u = false := by
        simp only [hA, Bool.not_true]
      simp [List.filter_cons, hu]
    · -- fresh address: the head is its own first occurrence and is kept
      have hB : pre.any (fun x => x.email == u.email) = false := by
        rw [Bool.eq_false_iff]; exact hA
      have hnlt : ¬ pre.findIdx (fun t => t.email == u.email) < pre.length := by
        intro hlt
        obtain ⟨x, hx, hpx⟩ := exists_of_findIdx_lt _ pre hlt
        have : pre.any (fun x => x.email == u.email) = true :=
          List.any_eq_true.mpr ⟨x, hx, hpx⟩
        rw [hB] at this; exact Bool.false_ne_true this
      have hfind : l0.findIdx (fun t => t.email == u.email) = pre.length := by
        rw [h, List.findIdx_append, if_neg hnlt, List.findIdx_cons]
        simp
      have hcond : (l0.findIdx (fun t => t.email == u.email) == pre.length) = true := by
        rw [hfind]; exact beq_self_eq_true _
      have hstep := ih (pre ++ [u]) hpre1
      rw [hlen1] at hstep
      have hu : (fun v => !(pre.any (fun x => x.email == v.email))) u = true := by
        simp only [hB, Bool.not_false]
      rw [jsFilterWithIndex, if_pos (by simp [hcond]), hstep]
      have hrhs : dedup ((u :: rest).filter (fun v => !(pre.any (fun x => x.email == v.email))))
          = u :: dedup ((rest.filter (fun v => !(pre.any (fun x => x.email == v.email)))).filter
              (fun v => !(v.email == u.email))) := by
        rw [List.filter_cons, if_pos (by simp [hu])]
        rw [dedup]
      rw [hrhs, List.filter_filter]
      congr 2
      apply List.filter_congr
      intro v _
      have happ : (pre ++ [u]).any (fun x => x.email == v.email)
          = (pre.any (fun x => x.email == v.email) || (u.email == v.email)) := by
        simp [List.any_append]
      rw [happ, optBeq_comm u.email v.email]
      cases hvp : pre.any (fun x => x.email == v.email) <;>
        cases hvu : v.email == u.email <;> simp [hvp, hvu]

/-- The source's `filter`/`findIndex` deduplication computes exactly the
specification's first-occurrence dedup. -/
lemma uniqueUsers_eq_dedup (l : List User) : uniqueUsers l = dedup l := by
  have h := jsFilter_eq_dedup_aux l l [] (by simp)
  simpa [uniqueUsers] using h

/-- Every survivor of the dedup occurs in the original list. -/
lemma dedup_subset : ∀ (l : List User) (v : User), v ∈ dedup l → v ∈ l := by
  intro l
  induction l using dedup.induct with
  | case1 => intro v hv; simp [dedup] at hv
  | case2 u rest ih =>
    intro v hv
    rw [dedup] at hv
    rcases List.mem_cons.mp hv with h | h
    · exact h ▸ List.mem_cons_self u rest
    · exact List.mem_cons_of_mem u (List.mem_of_mem_filter (ih v h))

/-- The deduplicated list carries pairwise distinct email values. -/
lemma dedup_email_nodup : ∀ l : List User, ((dedup l).map (·.email)).Nodup := by
  intro l
  induction l using dedup.induct with
  | case1 => simp [dedup]
  | case2 u rest ih =>
    rw [dedup]
    rw [List.map_cons, List.nodup_cons]
    refine ⟨?_, ih⟩
    intro hmem
    obtain ⟨v, hv, hve⟩ := List.mem_map.mp hmem
    have hvfilter := dedup_subset _ v hv
    have := List.mem_filter.mp hvfilter
    rw [hve] at this
    simp at this

/-- Deduplication never invents members: it keeps a first occurrence of
every address class, so an all-truthy input stays all-truthy. -/
lemma dedup_truthy (l : List User) (h : ∀ u ∈ l, truthyEmail u = true) :
    ∀ u ∈ dedup l, truthyEmail u = true :=
  fun u hu => h u (dedup_subset l u hu)

/-! ## Per-recipient characterisation of the dispatcher -/


/-- Success implies the recipient's email was truthy. -/
lemma truthy_of_delivered (env : DispatchEnv) (subject content organizationName organizationUuid : String)
    (u : User) (h : deliveredB env subject content organizationName organizationUuid u = true) :
    truthyEmail u = true := by
  obtain ⟨uid, uemail⟩ := u
  unfold deliveredB at h
  unfold truthyEmail
  cases uemail with
  | none => simp at h
  | some e =>
    by_cases he : (e == "") = true
    · simp [he] at h
    · simp only [Bool.not_eq_true] at he
      simp [he]

/-- Structured description of one run of the per-recipient body: what it
submits, how it counts, what it fails and what it inserts, in terms of the
truthiness and delivery predicates. -/
lemma sendToUser_spec (env : DispatchEnv) (subject content : String)
    (attachments : List String) (organizationName organizationUuid : String) (u : User) :
    (sendToUser env subject content attachments organizationName organizationUuid u).submitted
        = (if truthyEmail u then [contentOf subject content attachments organizationName u] else [])
    ∧ (sendToUser env subject content attachments organizationName organizationUuid u).succ
        = (if deliveredB env subject content organizationName organizationUuid u then 1 else 0)
    ∧ (sendToUser env subject content attachments organizationName organizationUuid u).rows
        = (if deliveredB env subject content organizationName organizationUuid u
            then [rowOf subject content organizationName organizationUuid u] else [])
    ∧ (sendToUser env subject content attachments organizationName organizationUuid u).failures.length
        = (if failedB env subject content organizationName organizationUuid u then 1 else 0)
    ∧ (sendToUser env subject content attachments organizationName organizationUuid u).failures.map (·.email)
        = (if failedB env subject content organizationName organizationUuid u
            then [u.email.getD ""] else []) := by
  obtain ⟨uid, uemail⟩ := u
  simp only [sendToUser, failedB, truthyEmail, deliveredB, contentOf, rowOf]
  cases uemail with
  | none => simp
  | some e =>
    by_cases he : (e == "") = true
    · simp [he]
    · simp only [Bool.not_eq_true] at he
      simp only [he, Bool.not_false, if_false, Bool.false_eq_true, Bool.true_and]
      cases hse : sendEmail (env.resend e) with
      | error msg => simp [Option.getD]
      | ok response =>
        by_cases hd : response.hasData = true
        · cases hi : env.insert ⟨organizationUuid, uid, organizationName, e, subject, content, "Sent"⟩ with
          | none => simp [hd, hi, Option.getD]
          | some insertMsg => simp [hd, hi, Option.getD]
        · simp only [Bool.not_eq_true] at hd
          simp [hd, Option.getD]

/-! ## Aggregation lemmas for the dispatcher -/

/-- Flattening singleton-or-empty contributions is filtering then mapping. -/
lemma flatten_ite {α β : Type} (f : α → Bool) (g : α → β) (proj : α → List β) :
    ∀ l : List α, (∀ u ∈ l, proj u = if f u then [g u] else []) →
      (l.map proj).flatten = (l.filter f).map g := by
  intro l
  induction l with
  | nil => intro _; simp
  | cons a rest ih =>
    intro h
    have ha := h a (List.mem_cons_self a rest)
    have hrest := ih (fun u hu => h u (List.mem_cons_of_mem a hu))
    rw [List.map_cons, List.flatten_cons, hrest, ha, List.filter_cons]
    cases hf : f a <;> simp [hf]

/-- Summing zero-or-one contributions is counting. -/
lemma sum_ite {α : Type} (f : α → Bool) (proj : α → Nat) :
    ∀ l : List α, (∀ u ∈ l, proj u = if f u then 1 else 0) →
      (l.map proj).sum = l.countP f := by
  intro l
  induction l with
  | nil => intro _; simp
  | cons a rest ih =>
    intro h
    have ha := h a (List.mem_cons_self a rest)
    have hrest := ih (fun u hu => h u (List.mem_cons_of_mem a hu))
    rw [List.map_cons, List.sum_cons, hrest, ha, List.countP_cons]
    cases hf : f a
    · simp [hf]
    · simp [hf]
      omega

/-- Messages submitted by a dispatch: one per deduplicated addressable
recipient, in order. -/
lemma sendNewsletter_submitted (env : DispatchEnv) (subject content : String)
    (allUsers : List User) (attachments : List String)
    (organizationName organizationUuid : String) :
    (sendNewsletter env subject content allUsers attachments organizationName organizationUuid).submitted
      = ((uniqueUsers allUsers).filter truthyEmail).map
          (contentOf subject content attachments organizationName) := by
  unfold sendNewsletter
  dsimp only
  rw [List.map_map]
  exact flatten_ite truthyEmail _ _ (uniqueUsers allUsers)
    (fun u _ => (sendToUser_spec env subject content attachments organizationName organizationUuid u).1)

/-- Success counter of a dispatch: the number of deduplicated recipients
whose send reached the success branch. -/
lemma sendNewsletter_successCount (env : DispatchEnv) (subject content : String)
    (allUsers : List User) (attachments : List String)
    (organizationName organizationUuid : String) :
    (sendNewsletter env subject content allUsers attachments organizationName organizationUuid).successCount
      = (uniqueUsers allUsers).countP (deliveredB env subject content organizationName organizationUuid) := by
  unfold sendNewsletter
  dsimp only
  rw [List.map_map]
  exact sum_ite _ _ (uniqueUsers allUsers)
    (fun u _ => (sendToUser_spec env subject content attachments organizationName organizationUuid u).2.1)

/-- Rows persisted by a dispatch: one `Sent` row per delivered recipient. -/
lemma sendNewsletter_rows (env : DispatchEnv) (subject content : String)
    (allUsers : List User) (attachments : List String)
    (organizationName organizationUuid : String) :
    (sendNewsletter env subject content allUsers attachments organizationName organizationUuid).rows
      = ((uniqueUsers allUsers).filter (deliveredB env subject content organizationName organizationUuid)).map
          (rowOf subject content organizationName organizationUuid) := by
  unfold sendNewsletter
  dsimp only
  rw [List.map_map]
  exact flatten_ite _ _ _ (uniqueUsers allUsers)
    (fun u _ => (sendToUser_spec env subject content attachments organizationName organizationUuid u).2.2.1)

/-- Length of the failures list of a dispatch: the number of addressable
deduplicated recipients whose send did not reach the success branch. -/
lemma sendNewsletter_failures_length (env : DispatchEnv) (subject content : String)
    (allUsers : List User) (attachments : List String)
    (organizationName organizationUuid : String) :
    (sendNewsletter env subject content allUsers attachments organizationName organizationUuid).failures.length
      = (uniqueUsers allUsers).countP (failedB env subject content organizationName organizationUuid) := by
  unfold sendNewsletter
  dsimp only
  rw [List.length_flatten, List.map_map, List.map_map]
  exact sum_ite _ _ (uniqueUsers allUsers)
    (fun u _ => (sendToUser_spec env subject content attachments organizationName organizationUuid u).2.2.2.1)

/-- Addresses in the failures list of a dispatch: exactly the emails of the
failed deduplicated recipients, in order. -/
lemma sendNewsletter_failures_emails (env : DispatchEnv) (subject content : String)
    (allUsers : List User) (attachments : List String)
    (organizationName organizationUuid : String) :
    (sendNewsletter env subject content allUsers attachments organizationName organizationUuid).failures.map (·.email)
      = ((uniqueUsers allUsers).filter (failedB env subject content organizationName organizationUuid)).map
          (fun u => u.email.getD "") := by
  unfold sendNewsletter
  dsimp only
  rw [List.map_flatten, List.map_map, List.map_map]
  exact flatten_ite _ _ _ (uniqueUsers allUsers)
    (fun u _ => (sendToUser_spec env subject content attachments organizationName organizationUuid u).2.2.2.2)

/-- Delivered and failed recipients partition the addressable ones. -/
lemma countP_delivered_add_failed (env : DispatchEnv)
    (subject content organizationName organizationUuid : String) (l : List User) :
    l.countP (deliveredB env subject content organizationName organizationUuid)
      + l.countP (failedB env subject content organizationName organizationUuid)
      = l.countP truthyEmail := by
  induction l with
  | nil => simp
  | cons a rest ih =>
    rw [List.countP_cons, List.countP_cons, List.countP_cons]
    cases hd : deliveredB env subject content organizationName organizationUuid a
    · have hf : failedB env subject content organizationName organizationUuid a = truthyEmail a := by
        unfold failedB; rw [hd]; simp
      rw [hf]
      cases ht : truthyEmail a <;> simp [ht] <;> omega
    · have ht : truthyEmail a = true := truthy_of_delivered _ _ _ _ _ _ hd
      have hf : failedB env subject content organizationName organizationUuid a = false := by
        unfold failedB; rw [hd]; simp
      rw [hf, ht]
      simp; omega

/-- Truthy recipients carry a concrete non-empty address. -/
lemma email_of_truthy (u : User) (h : truthyEmail u = true) :
    u.email = some (u.email.getD "") := by
  unfold truthyEmail at h
  cases he : u.email with
  | none => rw [he] at h; simp at h
  | some e => simp [he]

/-- Dedup of a three-element list with pairwise distinct addresses. -/
lemma dedup_three (u1 u2 u3 : User) (d12 : u1.email ≠ u2.email)
    (d13 : u1.email ≠ u3.email) (d23 : u2.email ≠ u3.email) :
    dedup [u1, u2, u3] = [u1, u2, u3] := by
  have h21 : (u2.email == u1.email) = false := beq_eq_false_iff_ne.mpr (Ne.symm d12)
  have h31 : (u3.email == u1.email) = false := beq_eq_false_iff_ne.mpr (Ne.symm d13)
  have h32 : (u3.email == u2.email) = false := beq_eq_false_iff_ne.mpr (Ne.symm d23)
  rw [dedup.eq_def]
  simp only [h21, h31, List.filter_cons, List.filter_nil, Bool.not_false, if_true,
    List.cons.injEq, true_and]
  rw [dedup.eq_def]
  simp only [h32, List.filter_cons, List.filter_nil, Bool.not_false, if_true,
    List.cons.injEq, true_and]
  rw [dedup.eq_def]
  simp only [List.filter_nil, List.cons.injEq, true_and]
  rw [dedup.eq_def]

/-- C10: each deduplicated recipient with a non-empty email contributes
exactly one outcome (a success increment or a failure entry, never both),
so `successCount + |failures|` equals the number of deduplicated recipients
with a non-empty email; recipients without one are excluded from both. -/
theorem c10_success_plus_failures_counts_addressable (env : DispatchEnv)
    (subject content : String) (allUsers : List User) (attachments : List String)
    (organizationName organizationUuid : String) :
    (sendNewsletter env subject content allUsers attachments organizationName organizationUuid).successCount
      + (sendNewsletter env subject content allUsers attachments organizationName organizationUuid).failures.length
      = ((uniqueUsers allUsers).filter truthyEmail).length := by
  rw [sendNewsletter_successCount, sendNewsletter_failures_length,
    countP_delivered_add_failed, List.countP_eq_length_filter]

/-- C1: on a recipient list whose entries all carry a non-empty address,
`sendNewsletter` submits exactly `|dedup R|` messages, one per distinct
address, first occurrence kept, for every duplicate pattern and order. -/
theorem c1_dispatch_sends_one_message_per_distinct_address (env : DispatchEnv)
    (subject content : String) (allUsers : List User) (attachments : List String)
    (organizationName organizationUuid : String)
    (h : ∀ u ∈ allUsers, truthyEmail u = true) :
    (sendNewsletter env subject content allUsers attachments organizationName organizationUuid).submitted.length
        = (dedup allUsers).length
    ∧ (sendNewsletter env subject content allUsers attachments organizationName organizationUuid).submitted.map (·.toField)
        = (dedup allUsers).map (fun u => u.email.getD "")
    ∧ ((sendNewsletter env subject content allUsers attachments organizationName organizationUuid).submitted.map (·.toField)).Nodup := by
  have huniq : uniqueUsers allUsers = dedup allUsers := uniqueUsers_eq_dedup allUsers
  have hfilter : (dedup allUsers).filter truthyEmail = dedup allUsers :=
    List.filter_eq_self.mpr (dedup_truthy allUsers h)
  have hsub := sendNewsletter_submitted env subject content allUsers attachments organizationName organizationUuid
  rw [huniq, hfilter] at hsub
  have hmap : ((dedup allUsers).map
        (contentOf subject content attachments organizationName)).map (·.toField)
      = ((dedup allUsers).map (·.email)).map (fun o => o.getD "") := by
    rw [List.map_map, List.map_map]
    apply List.map_congr_left
    intro u _
    rfl
  refine ⟨?_, ?_, ?_⟩
  · rw [hsub, List.length_map]
  · rw [hsub, hmap, List.map_map]
    apply List.map_congr_left
    intro u _
    rfl
  · rw [hsub, hmap]
    apply List.Nodup.map_on ?_ (dedup_email_nodup allUsers)
    intro x hx y hy hxy
    obtain ⟨ux, hux, huxe⟩ := List.mem_map.mp hx
    obtain ⟨uy, huy, huye⟩ := List.mem_map.mp hy
    have htx : truthyEmail ux = true := dedup_truthy allUsers h ux hux
    have hty : truthyEmail uy = true := dedup_truthy allUsers h uy huy
    have hex := email_of_truthy ux htx
    have hey := email_of_truthy uy hty
    rw [← huxe, ← huye] at hxy ⊢
    rw [hex, hey, hxy]

/-- C7: in a three-recipient job with distinct non-empty addresses where
exactly one recipient's send fails, the summary counts two successes, the
failures list names exactly that recipient's address, and exactly two
`Sent` rows are persisted. -/
theorem c7_single_failure_isolated (env : DispatchEnv) (subject content : String)
    (attachments : List String) (organizationName organizationUuid : String)
    (u1 u2 u3 : User)
    (h1 : truthyEmail u1 = true) (h2 : truthyEmail u2 = true) (h3 : truthyEmail u3 = true)
    (d12 : u1.email ≠ u2.email) (d13 : u1.email ≠ u3.email) (d23 : u2.email ≠ u3.email)
    (hone : [u1, u2, u3].countP (failedB env subject content organizationName organizationUuid) = 1) :
    (sendNewsletter env subject content [u1, u2, u3] attachments organizationName organizationUuid).successCount = 2
    ∧ (sendNewsletter env subject content [u1, u2, u3] attachments organizationName organizationUuid).failures.length = 1
    ∧ (sendNewsletter env subject content [u1, u2, u3] attachments organizationName organizationUuid).failures.map (·.email)
        = ([u1, u2, u3].filter (failedB env subject content organizationName organizationUuid)).map
            (fun u => u.email.getD "")
    ∧ (sendNewsletter env subject content [u1, u2, u3] attachments organizationName organizationUuid).rows.length = 2
    ∧ (sendNewsletter env subject content [u1, u2, u3] attachments organizationName organizationUuid).rows.all
        (fun row => row.status == "Sent") = true := by
  have huniq : uniqueUsers [u1, u2, u3] = [u1, u2, u3] := by
    rw [uniqueUsers_eq_dedup]
    exact dedup_three u1 u2 u3 d12 d13 d23
  have htr : [u1, u2, u3].countP truthyEmail = 3 := by
    simp [List.countP_cons, h1, h2, h3]
  have hpart := countP_delivered_add_failed env subject content organizationName organizationUuid [u1, u2, u3]
  have hdel : [u1, u2, u3].countP (deliveredB env subject content organizationName organizationUuid) = 2 := by
    omega
  refine ⟨?_, ?_, ?_, ?_, ?_⟩
  · rw [sendNewsletter_successCount, huniq, hdel]
  · rw [sendNewsletter_failures_length, huniq, hone]
  · rw [sendNewsletter_failures_emails, huniq]
  · rw [sendNewsletter_rows, huniq, List.length_map, ← List.countP_eq_length_filter, hdel]
  · rw [sendNewsletter_rows, huniq]
    rw [List.all_eq_true]
    intro row hrow
    obtain ⟨u, _, hu⟩ := List.mem_map.mp hrow
    rw [← hu]
    rfl

/-- Concrete instance of the C1 theorem: a duplicate-bearing list yields
exactly one submission per distinct address. -/
theorem c1_witness_concrete :
    (∀ u ∈ usersC1, truthyEmail u = true)
    ∧ ((sendNewsletter envAllOk "Subject" "Body" usersC1 [] "Acme" "org-1").submitted.length
          = (dedup usersC1).length
      ∧ (sendNewsletter envAllOk "Subject" "Body" usersC1 [] "Acme" "org-1").submitted.map (·.toField)
          = (dedup usersC1).map (fun u => u.email.getD "")
      ∧ ((sendNewsletter envAllOk "Subject" "Body" usersC1 [] "Acme" "org-1").submitted.map (·.toField)).Nodup) :=
  ⟨by decide, c1_dispatch_sends_one_message_per_distinct_address envAllOk "Subject" "Body" usersC1 []
    "Acme" "org-1" (by decide)⟩

/-- Concrete instance of the C7 theorem: one provider failure among three
recipients yields two successes, one named failure and two Sent rows. -/
theorem c7_witness_concrete :
    ([uA, uB, uC].countP (failedB envOneFail "S" "B" "Acme" "org-1") = 1)
    ∧ ((sendNewsletter envOneFail "S" "B" [uA, uB, uC] [] "Acme" "org-1").successCount = 2
      ∧ (sendNewsletter envOneFail "S" "B" [uA, uB, uC] [] "Acme" "org-1").failures.length = 1
      ∧ (sendNewsletter envOneFail "S" "B" [uA, uB, uC] [] "Acme" "org-1").failures.map (·.email)
          = ([uA, uB, uC].filter (failedB envOneFail "S" "B" "Acme" "org-1")).map
              (fun u => u.email.getD "")
      ∧ (sendNewsletter envOneFail "S" "B" [uA, uB, uC] [] "Acme" "org-1").rows.length = 2
      ∧ (sendNewsletter envOneFail "S" "B" [uA, uB, uC] [] "Acme" "org-1").rows.all
          (fun row => row.status == "Sent") = true) :=
  ⟨by decide, c7_single_failure_isolated envOneFail "S" "B" [] "Acme" "org-1" uA uB uC
    (by decide) (by decide) (by decide) (by decide) (by decide) (by decide) (by decide)⟩

/-! ## Relevance classifier claims -/

/-- Containing a non-empty pattern forces the container to be non-empty. -/
lemma beq_empty_false_of_contained (s pat : String) (hp : pat.data ≠ [])
    (h : pat.data <:+: s.data) : (s == "") = false := by
  apply beq_eq_false_iff_ne.mpr
  intro hs
  subst hs
  obtain ⟨l, r, hlr⟩ := h
  have hnil : l ++ (pat.data ++ r) = [] := by simpa [List.append_assoc] using hlr
  have := (List.append_eq_nil.mp ((List.append_eq_nil.mp hnil).2)).1
  exact hp this

/-- The `+<slug>@gmail.com` pattern is never the empty string. -/
lemma plus_slug_pattern_ne_nil (organizationSlug : String) :
    ("+" ++ organizationSlug ++ "@gmail.com").data ≠ [] := by
  rw [String.data_append, String.data_append]
  intro hnil
  have := (List.append_eq_nil.mp ((List.append_eq_nil.mp hnil).1)).1
  simp [String.data] at this

/-- C2 (amended): an INBOX message is classified relevant iff some `to`
entry's formatted text contains `+<slug>@gmail.com` — the mail domain is
fixed to gmail.com, not arbitrary. -/
theorem c2_amended_inbox_relevance_gmail_domain_only (organizationName organizationSlug : String)
    (m : ParsedMail) :
    computeIsRelevant "INBOX" organizationName organizationSlug m = true
    ↔ ∃ tf, m.toField = some tf ∧ ∃ a ∈ toArray tf,
        ("+" ++ organizationSlug ++ "@gmail.com").data <:+: a.text.data := by
  unfold computeIsRelevant
  have hmb1 : (("INBOX" : String) == "[Gmail]/Sent Mail") = false := by decide
  have hmb2 : (("INBOX" : String) == "INBOX") = true := by decide
  cases htf : m.toField with
  | none => simp [hmb1, hmb2, htf]
  | some tf =>
    simp only [hmb1, hmb2, htf, Bool.false_eq_true, if_false, if_true,
      List.any_eq_true, strTruthy, jsIncludes, Bool.and_eq_true, decide_eq_true_eq,
      Option.some.injEq]
    constructor
    · rintro ⟨a, ha, _, hinf⟩
      exact ⟨tf, rfl, a, ha, hinf⟩
    · rintro ⟨tf2, htf2, a, ha, hinf⟩
      subst htf2
      refine ⟨a, ha, ?_, hinf⟩
      have := beq_empty_false_of_contained a.text _
        (plus_slug_pattern_ne_nil organizationSlug) hinf
      simp [this]

/-- C2 counterexample: with slug `acme` the address `events+acme@yahoo.com`
contains `+acme@` (so the claim says relevant), yet the classifier returns
false because it matches against `+acme@gmail.com`. -/
theorem c2_counterexample_non_gmail_domain :
    specReceivedRelevantAnyDomain "acme" mC2 = true
    ∧ computeIsRelevant "INBOX" "Acme" "acme" mC2 = false := by
  constructor
  · decide
  · decide

/-- C3: a sent-mail message is classified relevant iff some `from` entry's
display name contains the organization's (non-empty) display name as a
case-sensitive substring. -/
theorem c3_sent_relevance_iff_from_name_contains_org (organizationName organizationSlug : String)
    (m : ParsedMail) (h : organizationName ≠ "") :
    computeIsRelevant "[Gmail]/Sent Mail" organizationName organizationSlug m = true
    ↔ ∃ fromObj, m.fromField = some fromObj
        ∧ ∃ address ∈ fromObj.value, organizationName.data <:+: address.name.data := by
  unfold computeIsRelevant
  have hmb : (("[Gmail]/Sent Mail" : String) == "[Gmail]/Sent Mail") = true := by decide
  cases hf : m.fromField with
  | none => simp [hmb, hf]
  | some fromObj =>
    simp only [hmb, hf, if_true, List.any_eq_true, strTruthy, jsIncludes,
      Bool.and_eq_true, decide_eq_true_eq, Option.some.injEq]
    constructor
    · rintro ⟨a, ha, _, hinf⟩
      exact ⟨fromObj, rfl, a, ha, hinf⟩
    · rintro ⟨fromObj2, hobj, a, ha, hinf⟩
      subst hobj
      refine ⟨a, ha, ?_, hinf⟩
      have hp : organizationName.data ≠ [] := by
        intro hnil
        exact h (String.ext hnil)
      have := beq_empty_false_of_contained a.name _ hp hinf
      simp [this]

/-- Concrete instance of the C3 theorem at org name `Acme Robotics`. -/
theorem c3_witness_concrete :
    ("Acme Robotics" ≠ "")
    ∧ (computeIsRelevant "[Gmail]/Sent Mail" "Acme Robotics" "acme-robotics" mC3 = true
      ↔ ∃ fromObj, mC3.fromField = some fromObj
          ∧ ∃ address ∈ fromObj.value, "Acme Robotics".data <:+: address.name.data) :=
  ⟨by decide, c3_sent_relevance_iff_from_name_contains_org "Acme Robotics" "acme-robotics" mC3
    (by decide)⟩

/-! ## Route lifecycle claims -/

/-- C6: a missing (or empty) organization name or slug makes the route
return the 400 response immediately: the effect trace is empty — in
particular no connection was attempted — and the disk is untouched. -/
theorem c6_missing_params_rejected_before_connection (env : RouteEnv)
    (organizationName organizationSlug : Option String) (disk0 downloaded0 : List String)
    (h : jsFalsyParam organizationName = true ∨ jsFalsyParam organizationSlug = true) :
    getRoute env organizationName organizationSlug disk0 downloaded0
      = (.badRequest "Organization name and slug are required", ⟨[], disk0, downloaded0⟩) := by
  unfold getRoute
  rcases h with h | h <;> simp [h]

/-- Concrete instance of the C6 theorem: an absent name with a present slug
yields the 400 and an empty effect trace. -/
theorem c6_witness_concrete :
    (jsFalsyParam none = true ∨ jsFalsyParam (some "acme") = true)
    ∧ getRoute envTrivial none (some "acme") ["f.txt"] []
        = (.badRequest "Organization name and slug are required", ⟨[], ["f.txt"], []⟩) :=
  ⟨Or.inl rfl,
   c6_missing_params_rejected_before_connection envTrivial none (some "acme") ["f.txt"] []
     (Or.inl rfl)⟩

/-- C5 (amended): on the normal completion path the session is closed; the
error paths are not covered because the source only calls
`connection.end()` right before the sweep. -/
theorem c5_amended_session_closed_on_success_path (env : RouteEnv)
    (organizationName organizationSlug : Option String) (disk0 downloaded0 : List String)
    (emails : List Email) (st : RouteState)
    (h : getRoute env organizationName organizationSlug disk0 downloaded0 = (.ok emails, st)) :
    Effect.endSession ∈ st.trace := by
  rw [getRoute] at h
  split at h
  · simp at h
  · split at h
    · simp at h
    · dsimp only at h
      split at h
      · simp at h
      · rw [Prod.mk.injEq] at h
        obtain ⟨-, hst⟩ := h
        rw [← hst]
        simp [List.mem_append]

/-- C5 counterexample: a parse error after the connection makes the route
return a 500 with the connection opened but never closed — the session is
not closed on this exit path. -/
theorem c5_counterexample_session_leak_on_parse_error :
    (getRoute envParseFails (some "Acme") (some "acme") [] []).1 = .serverError "Malformed message"
    ∧ Effect.connect ∈ (getRoute envParseFails (some "Acme") (some "acme") [] []).2.trace
    ∧ Effect.endSession ∉ (getRoute envParseFails (some "Acme") (some "acme") [] []).2.trace := by
  decide

/-- C4 (amended): a message without a truthy raw body part is skipped and
the loop continues; but when parsing a retrieved body throws, the error
propagates out of the message loop (aborting the cycle) instead of
skipping that message. -/
theorem c4_amended_missing_body_skipped_parse_error_propagates :
    (∀ (env : RouteEnv) (organizationName organizationSlug mailbox : String)
        (res : FetchedMessage) (rest : List FetchedMessage) (st : RouteState),
        rawEmailOf res = none →
        processMessages env organizationName organizationSlug mailbox (res :: rest) st
          = processMessages env organizationName organizationSlug mailbox rest st)
    ∧ (∀ (env : RouteEnv) (organizationName organizationSlug mailbox : String)
        (res : FetchedMessage) (rest : List FetchedMessage) (st : RouteState)
        (raw msg : String),
        rawEmailOf res = some raw → raw ≠ "" → env.parse raw = .error msg →
        processMessages env organizationName organizationSlug mailbox (res :: rest) st
          = (st, .error msg)) := by
  constructor
  · intro env organizationName organizationSlug mailbox res rest st h
    simp only [processMessages, h]
  · intro env organizationName organizationSlug mailbox res rest st raw msg h1 h2 h3
    have h2' : (raw == "") = false := beq_eq_false_iff_ne.mpr h2
    simp only [processMessages, h1, h2', Bool.false_eq_true, if_false, h3]

/-- Concrete instance of the C4 amended theorem: the body-less message is
skipped; the unparsable one aborts the loop with its parse error. -/
theorem c4_witness_concrete :
    (processMessages envTrivial "Acme" "acme" "INBOX" [msgNoBody] ⟨[], [], []⟩
        = processMessages envTrivial "Acme" "acme" "INBOX" [] ⟨[], [], []⟩)
    ∧ (processMessages envParseFails "Acme" "acme" "INBOX" [msgBadBody] ⟨[], [], []⟩
        = (⟨[], [], []⟩, .error "Malformed message")) :=
  ⟨c4_amended_missing_body_skipped_parse_error_propagates.1 envTrivial "Acme" "acme" "INBOX"
      msgNoBody [] ⟨[], [], []⟩ rfl,
   c4_amended_missing_body_skipped_parse_error_propagates.2 envParseFails "Acme" "acme" "INBOX"
      msgBadBody [] ⟨[], [], []⟩ "BROKEN" "Malformed message" rfl (by decide) rfl⟩

/-- C4 counterexample: with one unparsable message in the batch the route
returns a top-level error instead of the classified remaining messages —
without it the very same remaining message is returned. -/
theorem c4_counterexample_parse_error_aborts_cycle :
    (getRoute envTwoMsgs (some "Acme") (some "acme") [] []).1 = .serverError "Malformed message"
    ∧ (responseEmails (getRoute envOneGoodMsg (some "Acme") (some "acme") [] []).1).map
        (fun emails => emails.length) = some 1 := by
  decide

/-! ## Attachment sweep claims -/

/-- C9 counterexample: after the second cycle's sweep the file written by
the first cycle is still on disk although the most recent result set
references only the second cycle's attachment — an orphan w.r.t. the most
recent ingestion survives because the valid set is process-lifetime wide. -/
theorem c9_counterexample_stale_file_survives_sweep :
    runCycle2.2.disk = ["1-100-a.txt", "2-200-b.txt"]
    ∧ (responseEmails runCycle2.1).map referencedFiles = some ["2-200-b.txt"]
    ∧ "1-100-a.txt" ∈ runCycle2.2.disk := by
  decide

/-- C9 (amended): when every unlink succeeds, a sweep leaves on disk only
files of the process-wide downloaded set (not merely those of the most
recent result set), and the sweep is idempotent: running it again with the
same valid set deletes nothing further. -/
theorem c9_amended_sweep_keeps_valid_set_and_is_idempotent (unlinkOk : String → Bool)
    (files valid : List String) (h : ∀ f, unlinkOk f = true) :
    ((cleanupRemaining unlinkOk files valid).all (fun f => valid.contains f) = true)
    ∧ cleanupRemaining unlinkOk (cleanupRemaining unlinkOk files valid) valid
        = cleanupRemaining unlinkOk files valid := by
  constructor
  · rw [List.all_eq_true]
    intro f hf
    have hcond := (List.mem_filter.mp hf).2
    rw [h f] at hcond
    simpa using hcond
  · unfold cleanupRemaining
    rw [List.filter_filter]
    apply List.filter_congr
    intro f _
    cases hc : valid.contains f <;> simp [hc]

/-- Concrete instance of the C9 amended theorem. -/
theorem c9_witness_concrete :
    ((cleanupRemaining (fun _ => true) ["a", "b"] ["b"]).all (fun f => ["b"].contains f) = true)
    ∧ cleanupRemaining (fun _ => true) (cleanupRemaining (fun _ => true) ["a", "b"] ["b"]) ["b"]
        = cleanupRemaining (fun _ => true) ["a", "b"] ["b"] :=
  c9_amended_sweep_keeps_valid_set_and_is_idempotent (fun _ => true) ["a", "b"] ["b"]
    (fun _ => rfl)

/-! ## Client-side dispatch entry claims -/

/-- C8: a job whose recipient set is empty after deduplication is rejected
as a validation failure before any request is made, and a POST is only ever
issued with a non-empty recipient list. -/
theorem c8_empty_dedup_rejected_before_post (env : UIEnv) (form : NewsletterForm) :
    (uniqueUsers (combinedUsersOf env form) = [] →
      ∃ msg, handleSendNewsletter env form = .validationError msg)
    ∧ (∀ recipients subj msg,
        handleSendNewsletter env form = .posted recipients subj msg → recipients ≠ []) := by
  constructor
  · intro h
    unfold handleSendNewsletter
    cases hv : validateForm form with
    | some msg => exact ⟨msg, rfl⟩
    | none =>
      refine ⟨"At least one recipient is required.", ?_⟩
      simp [h]
  · intro recipients subj msg hpost hnil
    unfold handleSendNewsletter at hpost
    cases hv : validateForm form with
    | some m => rw [hv] at hpost; simp at hpost
    | none =>
      rw [hv] at hpost
      dsimp only at hpost
      split at hpost
      · simp at hpost
      · rename_i hcond
        injection hpost with hrec _ _
        rw [hnil] at hrec
        have hempty : uniqueUsers (combinedUsersOf env form) = [] := by
          exact List.map_eq_nil_iff.mp hrec
        rw [hempty] at hcond
        simp at hcond

/-- Concrete instance of the C8 theorem: the empty-dedup job is rejected
with a validation message, and a posting job carries its recipient. -/
theorem c8_witness_concrete :
    (∃ msg, handleSendNewsletter uiEnvEmpty formC8 = .validationError msg)
    ∧ ([some "a@x.com"] : List (Option String)) ≠ [] :=
  ⟨(c8_empty_dedup_rejected_before_post uiEnvEmpty formC8).1 rfl,
   (c8_empty_dedup_rejected_before_post uiEnvEmpty formC8b).2 [some "a@x.com"] "Subj" "Body"
     (by decide)⟩

/-- Concrete instance of the C5 amended theorem: a successful cycle closes
the session. -/
theorem c5_witness_concrete : Effect.endSession ∈ stTrivialOk.trace :=
  c5_amended_session_closed_on_success_path envTrivial (some "Acme") (some "acme") [] [] []
    stTrivialOk (by decide)
